import Mathlib

/-!
Shallow embedding of the Flevoland field-boundary notebook
(`flevoland_field_boundary.ipynb`).  The notebook drives a remote
geospatial platform: every local computation (bit tests, band arithmetic,
thresholding, parameter assembly) is translated directly from the source;
the remote collaborator's primitives that the source only invokes
(region sampling, random-forest training, Canny, vectorization) are
modelled from the spec where a claim needs them, each marked by a doc
comment starting `Modelled from the spec:`.

Band values are rationals (the notebook's reflectances are decimal
fractions after division by 10000); quality flags are naturals so the
source's bit tests are exact.
-/

/-- Raw per-pixel bands of one Sentinel-2 scene as stored: the four
reflectance bands used by the notebook plus the `QA60` quality word. -/
structure SceneBands where
  b2 : ℚ
  b3 : ℚ
  b4 : ℚ
  b8 : ℚ
  qa60 : Nat
deriving Repr, DecidableEq

/-- Per-pixel bands after `mask_s2_clouds`: every band of the image is
divided by 10000 (`.divide(10000)` applies to the whole image, `QA60`
included, so the quality word becomes a rational too). -/
structure ScaledBands where
  b2 : ℚ
  b3 : ℚ
  b4 : ℚ
  b8 : ℚ
  qa60 : ℚ
deriving Repr, DecidableEq

/-- `cloud_bit_mask = 1 << 10` from the source. -/
def cloud_bit_mask : Nat := 1 <<< 10

/-- `cirrus_bit_mask = 1 << 11` from the source. -/
def cirrus_bit_mask : Nat := 1 <<< 11

/-- The mask computed in `mask_s2_clouds`:
`qa.bitwiseAnd(cloud_bit_mask).eq(0).And(qa.bitwiseAnd(cirrus_bit_mask).eq(0))`. -/
def cloudMaskTest (qa : Nat) : Bool :=
  (qa &&& cloud_bit_mask == 0) && (qa &&& cirrus_bit_mask == 0)

/-- `.divide(10000)` on one pixel: every band of the image divided by
10000. -/
def scaleBands (b : SceneBands) : ScaledBands :=
  ⟨b.b2 / 10000, b.b3 / 10000, b.b4 / 10000, b.b8 / 10000,
   (b.qa60 : ℚ) / 10000⟩

/-- `mask_s2_clouds` acting on one pixel: a pixel already masked stays
masked; an unmasked pixel survives exactly when `cloudMaskTest` holds of
its `QA60` word, and every band of a surviving pixel is divided by
10000 (`image.updateMask(mask).divide(10000)`). -/
def mask_s2_clouds : Option SceneBands → Option ScaledBands
  | none => none
  | some b => if cloudMaskTest b.qa60 then some (scaleBands b) else none

/-- `image.normalizedDifference([a, b])` per pixel: `(a - b) / (a + b)`. -/
def normalizedDifference (a b : ℚ) : ℚ := (a - b) / (a + b)

/-- Per-pixel bands after `add_ndvi`: the scaled bands plus the `NDVI`
band. -/
structure AugBands where
  b2 : ℚ
  b3 : ℚ
  b4 : ℚ
  b8 : ℚ
  qa60 : ℚ
  ndvi : ℚ
deriving Repr, DecidableEq

/-- `add_ndvi` on one pixel:
`image.addBands(image.normalizedDifference(['B8', 'B4']).rename('NDVI'))`. -/
def add_ndvi (px : ScaledBands) : AugBands :=
  ⟨px.b2, px.b3, px.b4, px.b8, px.qa60, normalizedDifference px.b8 px.b4⟩

/-- Per-pixel bands after `.select(FEATURE_BANDS)`: the four reflectance
bands plus `NDVI`, dropping `QA60`. -/
structure FeatureVec where
  b2 : ℚ
  b3 : ℚ
  b4 : ℚ
  b8 : ℚ
  ndvi : ℚ
deriving Repr, DecidableEq

/-- `.select(FEATURE_BANDS)` on one pixel. -/
def selectFeatureBands (px : AugBands) : FeatureVec :=
  ⟨px.b2, px.b3, px.b4, px.b8, px.ndvi⟩

/-- `edges.gt(0)` per pixel: edge strength strictly above zero becomes 1,
anything else 0 (`binary_edges = edges.gt(0)` in the source). -/
def gtZero (x : ℚ) : ℚ := if 0 < x then 1 else 0

/-- Axis-aligned geographic rectangle,
`ee.Geometry.Rectangle([xmin, ymin, xmax, ymax])`. -/
structure Rect where
  xmin : ℚ
  ymin : ℚ
  xmax : ℚ
  ymax : ℚ
deriving Repr, DecidableEq

/-- `AOI = ee.Geometry.Rectangle([5.3, 52.4, 5.7, 52.6])`. -/
def AOI : Rect := ⟨5.3, 52.4, 5.7, 52.6⟩

/-- `START_DATE = '2022-07-01'`. -/
def START_DATE : String := "2022-07-01"

/-- `END_DATE = '2022-07-31'`. -/
def END_DATE : String := "2022-07-31"

/-- `BANDS = ['B2', 'B3', 'B4', 'B8']`. -/
def BANDS : List String := ["B2", "B3", "B4", "B8"]

/-- `FEATURE_BANDS = BANDS + ['NDVI']`. -/
def FEATURE_BANDS : List String := BANDS ++ ["NDVI"]

/-- One entry of the `CLASSES` dict: a class value and a display color. -/
structure ClassSpec where
  value : ℚ
  color : String
deriving Repr, DecidableEq

/-- `CLASSES` from the source: Field has value 1, Non-Field value 0. -/
def CLASSES : List (String × ClassSpec) :=
  [("Field", ⟨1, "green"⟩), ("Non-Field", ⟨0, "gray"⟩)]

/-- `CLASS_PROPERTY = 'landcover'`. -/
def CLASS_PROPERTY : String := "landcover"

/-- One Sentinel-2 scene of the remote catalog: footprint, acquisition
date (an ISO date string, so lexicographic order is chronological), the
`CLOUDY_PIXEL_PERCENTAGE` metadata value, and the raw per-pixel bands
(`none` where the scene has no data). -/
structure Scene where
  footprint : Rect
  date : String
  cloudyPixelPercentage : ℚ
  pixels : ℚ × ℚ → Option SceneBands

/-- Rectangle intersection test, used to model `filterBounds`. -/
def Rect.intersects (a b : Rect) : Bool :=
  a.xmin ≤ b.xmax && b.xmin ≤ a.xmax && a.ymin ≤ b.ymax && b.ymin ≤ a.ymax

/-- `.filterBounds(AOI)`: keep scenes whose footprint meets the AOI. -/
def filterBounds (aoi : Rect) (xs : List Scene) : List Scene :=
  xs.filter (fun s => s.footprint.intersects aoi)

/-- `.filterDate(START_DATE, END_DATE)`: start inclusive, end exclusive. -/
def filterDate (startD endD : String) (xs : List Scene) : List Scene :=
  xs.filter (fun s => !decide (s.date < startD) && decide (s.date < endD))

/-- `.filter(ee.Filter.lt('CLOUDY_PIXEL_PERCENTAGE', t))`. -/
def filterCloudLt (t : ℚ) (xs : List Scene) : List Scene :=
  xs.filter (fun s => decide (s.cloudyPixelPercentage < t))

/-- `s2_collection`: the remote `COPERNICUS/S2_SR_HARMONIZED` archive
(passed in as `catalog`) filtered by bounds, date window and cloud
percentage below 10, exactly as chained in the source. -/
def s2_collection (catalog : List Scene) : List Scene :=
  filterCloudLt 10 (filterDate START_DATE END_DATE (filterBounds AOI catalog))

/-- `collection_size = s2_collection.size().getInfo()`. -/
def collection_size (catalog : List Scene) : Nat :=
  (s2_collection catalog).length

/-- Insertion into a sorted list of rationals (used by `median`). -/
def insertSorted (x : ℚ) : List ℚ → List ℚ
  | [] => [x]
  | y :: ys => if x ≤ y then x :: y :: ys else y :: insertSorted x ys

/-- Insertion sort on rationals (used by `median`). -/
def sortQ (xs : List ℚ) : List ℚ := xs.foldr insertSorted []

/-- Modelled from the spec: the remote platform's median reducer, absent
from the repository — the per-band median across the unmasked scene
values covering a pixel (middle of the sorted values, mean of the two
middle ones for an even count). -/
def median (xs : List ℚ) : ℚ :=
  let s := sortQ xs
  let n := xs.length
  if n % 2 = 1 then s.getD (n / 2) 0
  else (s.getD (n / 2 - 1) 0 + s.getD (n / 2) 0) / 2

/-- Modelled from the spec: the remote `.median()` collection reducer
applied bandwise to the masked, NDVI-augmented scenes; a pixel no scene
covers stays masked. -/
def medianAug (imgs : List (ℚ × ℚ → Option AugBands)) (p : ℚ × ℚ) :
    Option AugBands :=
  let vs := imgs.filterMap (fun img => img p)
  if vs.isEmpty then none
  else
    some ⟨median (vs.map AugBands.b2), median (vs.map AugBands.b3),
          median (vs.map AugBands.b4), median (vs.map AugBands.b8),
          median (vs.map AugBands.qa60), median (vs.map AugBands.ndvi)⟩

/-- `composite_image = s2_collection.map(mask_s2_clouds).map(add_ndvi)
.median().select(FEATURE_BANDS)`, per pixel. -/
def composite_image (catalog : List Scene) (p : ℚ × ℚ) : Option FeatureVec :=
  (medianAug
    ((s2_collection catalog).map
      (fun s q => (mask_s2_clouds (s.pixels q)).map add_ndvi)) p).map
    selectFeatureBands

/-- The raw stored values of one band, over the filtered scenes whose
pixel at `p` exists and passes the cloud/cirrus test (no rescaling). -/
def unmaskedRawBand (f : SceneBands → ℚ) (catalog : List Scene)
    (p : ℚ × ℚ) : List ℚ :=
  (s2_collection catalog).filterMap
    (fun s => (s.pixels p).bind
      (fun b => if cloudMaskTest b.qa60 then some (f b) else none))

/-- Value of a class name in the `CLASSES` dict
(`CLASSES['Field']['value']` and the like). -/
def classValue (c : String) : ℚ :=
  ((CLASSES.lookup c).getD ⟨0, ""⟩).value

/-- One `ee.Feature` of the `ground_truth` collection: a polygon ring and
the `landcover` property. -/
structure GTFeature where
  polygon : List (ℚ × ℚ)
  landcover : ℚ
deriving Repr, DecidableEq

/-- `ground_truth`: the four hand-authored polygons of the source, two
tagged `CLASSES['Field']['value']` and two `CLASSES['Non-Field']['value']`. -/
def ground_truth : List GTFeature :=
  [⟨[(5.45, 52.55), (5.45, 52.54), (5.46, 52.54), (5.46, 52.55)],
    classValue "Field"⟩,
   ⟨[(5.55, 52.48), (5.55, 52.47), (5.56, 52.47), (5.56, 52.48)],
    classValue "Field"⟩,
   ⟨[(5.34, 52.43), (5.34, 52.42), (5.35, 52.42), (5.35, 52.43)],
    classValue "Non-Field"⟩,
   ⟨[(5.65, 52.52), (5.65, 52.51), (5.66, 52.51), (5.66, 52.52)],
    classValue "Non-Field"⟩]

/-- Modelled from the spec: whether a sample point lies inside the
feature's polygon. The remote rasterizer decides this; all four
ground-truth polygons are axis-aligned rectangles, so membership is the
bounding-box test (a corner to the left, right, below and above). -/
def GTFeature.covers (f : GTFeature) (p : ℚ × ℚ) : Bool :=
  f.polygon.any (fun c => c.1 ≤ p.1) && f.polygon.any (fun c => p.1 ≤ c.1) &&
  f.polygon.any (fun c => c.2 ≤ p.2) && f.polygon.any (fun c => p.2 ≤ c.2)

/-- One training sample: the composite's feature bands at a pixel plus
the copied class property. -/
structure TrainingSample where
  features : FeatureVec
  label : ℚ
deriving Repr, DecidableEq

/-- Named arguments of the `sampleRegions` call in the source. -/
structure SampleArgs where
  properties : List String
  scale : ℚ
  tileScale : ℚ
deriving Repr, DecidableEq

/-- `sampleRegions(collection=ground_truth, properties=[CLASS_PROPERTY],
scale=10, tileScale=4)` — the literal arguments of the call. -/
def sampleRegions_args : SampleArgs := ⟨[CLASS_PROPERTY], 10, 4⟩

/-- Modelled from the spec: the remote `sampleRegions` restricted to one
feature — one sample per covered grid pixel where the composite is
unmasked, carrying the feature's `landcover` property unchanged. -/
def samplesFromFeature (img : ℚ × ℚ → Option FeatureVec)
    (grid : List (ℚ × ℚ)) (f : GTFeature) : List TrainingSample :=
  (grid.filter f.covers).filterMap
    (fun p => (img p).map (fun v => ⟨v, f.landcover⟩))

/-- Modelled from the spec: `training_data =
composite_image.sampleRegions(...)` over the remote platform's scale-10
sample grid, one batch of samples per ground-truth feature. -/
def training_data (img : ℚ × ℚ → Option FeatureVec)
    (grid : List (ℚ × ℚ)) : List TrainingSample :=
  ground_truth.flatMap (samplesFromFeature img grid)

/-- A decision tree over named feature bands, the unit of the remote
random-forest ensemble. -/
inductive DTree where
  | leaf (label : ℚ)
  | node (feature : String) (threshold : ℚ) (left : DTree) (right : DTree)
deriving Repr, DecidableEq

/-- Look a feature band up by name in a feature vector. -/
def FeatureVec.band (v : FeatureVec) : String → ℚ
  | "B2" => v.b2
  | "B3" => v.b3
  | "B4" => v.b4
  | "B8" => v.b8
  | "NDVI" => v.ndvi
  | _ => 0

/-- Evaluate a decision tree on a feature vector. -/
def DTree.eval (v : FeatureVec) : DTree → ℚ
  | .leaf l => l
  | .node f t l r => if v.band f ≤ t then l.eval v else r.eval v

/-- The labels at the leaves of a decision tree. -/
def DTree.leafLabels : DTree → List ℚ
  | .leaf l => [l]
  | .node _ _ l r => l.leafLabels ++ r.leafLabels

/-- The ensemble-size argument of `ee.Classifier.smileRandomForest(n)`. -/
structure RFConfig where
  numberOfTrees : Nat
deriving Repr, DecidableEq

/-- `ee.Classifier.smileRandomForest(n)`. -/
def smileRandomForest (n : Nat) : RFConfig := ⟨n⟩

/-- A trained ensemble: the fitted decision trees. -/
structure TrainedClassifier where
  trees : List DTree
deriving Repr, DecidableEq

/-- Modelled from the spec: the remote `.train(features, classProperty,
inputProperties)` primitive is opaque, so it is a parameter of this type;
`ValidTrainer` states the contract the spec gives it. -/
def Trainer : Type :=
  RFConfig → List TrainingSample → String → List String → TrainedClassifier

/-- Modelled from the spec: the remote trainer's contract — on a
non-empty sample list it fits exactly `numberOfTrees` decision trees, and
every leaf label is a class label occurring in the samples (training
fails on empty samples, so nothing is promised there). -/
def ValidTrainer (tr : Trainer) : Prop :=
  ∀ (cfg : RFConfig) (samples : List TrainingSample) (cp : String)
    (props : List String), samples ≠ [] →
    ((tr cfg samples cp props).trees.length = cfg.numberOfTrees ∧
     ∀ t ∈ (tr cfg samples cp props).trees, ∀ l ∈ t.leafLabels,
       l ∈ samples.map TrainingSample.label)

/-- `classifier = ee.Classifier.smileRandomForest(20).train(
features=training_data, classProperty=CLASS_PROPERTY,
inputProperties=FEATURE_BANDS)`. -/
def classifier (tr : Trainer) (img : ℚ × ℚ → Option FeatureVec)
    (grid : List (ℚ × ℚ)) : TrainedClassifier :=
  tr (smileRandomForest 20) (training_data img grid) CLASS_PROPERTY
    FEATURE_BANDS

/-- Majority vote: the value occurring most often in the votes list. -/
def majority (xs : List ℚ) : ℚ :=
  (xs.argmax (fun v => xs.count v)).getD 0

/-- Modelled from the spec: remote inference — each tree of the ensemble
votes on the pixel's feature vector and the majority label wins; masked
pixels stay masked. -/
def classify (c : TrainedClassifier) (img : ℚ × ℚ → Option FeatureVec)
    (p : ℚ × ℚ) : Option ℚ :=
  (img p).map (fun v => majority (c.trees.map (fun t => t.eval v)))

/-- `classification_map = composite_image.classify(classifier)`. -/
def classification_map (tr : Trainer) (img : ℚ × ℚ → Option FeatureVec)
    (grid : List (ℚ × ℚ)) : ℚ × ℚ → Option ℚ :=
  classify (classifier tr img grid) img

/-- A degenerate trainer satisfying `ValidTrainer`: every tree is a leaf
holding the first sample's label (used only to witness the contract). -/
def constTrainer : Trainer := fun cfg samples _ _ =>
  ⟨List.replicate cfg.numberOfTrees
    (DTree.leaf ((samples.map TrainingSample.label).headD 0))⟩

/-- Modelled from the spec: the remote `ee.Algorithms.CannyEdgeDetector`
primitive is opaque — a parameter taking the classification raster, the
threshold and sigma, and returning a continuous edge-strength raster on
the scale-10 pixel grid. -/
def EdgeDetector : Type :=
  (ℚ × ℚ → Option ℚ) → ℚ → ℚ → (ℤ × ℤ) → ℚ

/-- The named arguments of the Canny call in the source. -/
structure CannyArgs where
  threshold : ℚ
  sigma : ℚ
deriving Repr, DecidableEq

/-- `ee.Algorithms.CannyEdgeDetector(image=classification_map,
threshold=0.1, sigma=1)` — the literal arguments. -/
def canny_args : CannyArgs := ⟨0.1, 1⟩

/-- `edges`: the Canny detector applied to the classification map with
the source's threshold and sigma. -/
def edges (det : EdgeDetector) (cmap : ℚ × ℚ → Option ℚ) : ℤ × ℤ → ℚ :=
  det cmap canny_args.threshold canny_args.sigma

/-- `binary_edges = edges.gt(0)` as a raster. -/
def binary_edges (det : EdgeDetector) (cmap : ℚ × ℚ → Option ℚ)
    (q : ℤ × ℤ) : ℚ :=
  gtZero (edges det cmap q)

/-- The reducer argument of `reduceToVectors`
(`reducer=ee.Reducer.countEvery()` in the source). -/
inductive EEReducer where
  | countEvery
deriving Repr, DecidableEq

/-- Named arguments of the `reduceToVectors` call in the source. -/
structure ReduceToVectorsArgs where
  scale : ℚ
  geometry : Rect
  eightConnected : Bool
  labelProperty : String
  reducer : EEReducer
deriving Repr, DecidableEq

/-- `reduceToVectors(scale=10, geometry=AOI, eightConnected=True,
labelProperty='label', reducer=ee.Reducer.countEvery())` — the literal
arguments. -/
def reduceToVectors_args : ReduceToVectorsArgs :=
  ⟨10, AOI, true, "label", EEReducer.countEvery⟩

/-- The four edge-sharing neighbours of a raster pixel. -/
def neighbors4 (q : ℤ × ℤ) : List (ℤ × ℤ) :=
  [(q.1 - 1, q.2), (q.1 + 1, q.2), (q.1, q.2 - 1), (q.1, q.2 + 1)]

/-- The eight neighbours of a raster pixel (8-connectivity). -/
def neighbors8 (q : ℤ × ℤ) : List (ℤ × ℤ) :=
  [(q.1 - 1, q.2 - 1), (q.1 - 1, q.2), (q.1 - 1, q.2 + 1),
   (q.1, q.2 - 1), (q.1, q.2 + 1),
   (q.1 + 1, q.2 - 1), (q.1 + 1, q.2), (q.1 + 1, q.2 + 1)]

/-- The neighbourhood selected by the `eightConnected` flag. -/
def hoodOf (eight : Bool) (q : ℤ × ℤ) : List (ℤ × ℤ) :=
  if eight then neighbors8 q else neighbors4 q

/-- One vector feature of the `reduceToVectors` output: the pixels of a
connected region and the value of its label property, which under
`countEvery` is the number of pixels aggregated. -/
structure RegionFeature where
  pixels : List (ℤ × ℤ)
  label : Nat
deriving Repr, DecidableEq

/-- Fuel-bounded flood fill collecting the connected component of the
seed stack among pixels satisfying `isEdge`. -/
def floodFill (eight : Bool) (isEdge : ℤ × ℤ → Bool) :
    Nat → List (ℤ × ℤ) → List (ℤ × ℤ) → List (ℤ × ℤ)
  | 0, _, acc => acc
  | _ + 1, [], acc => acc
  | fuel + 1, q :: stack, acc =>
      if acc.contains q then floodFill eight isEdge fuel stack acc
      else
        floodFill eight isEdge fuel
          ((hoodOf eight q).filter isEdge ++ stack) (q :: acc)

/-- Worker of `reduceToVectors`: sweep the grid, and for each not yet
visited edge pixel emit the flood-filled region with its `countEvery`
label. -/
def rtvGo (eight : Bool) (isEdge : ℤ × ℤ → Bool) (fuel : Nat) :
    List (ℤ × ℤ) → List (ℤ × ℤ) → List RegionFeature → List RegionFeature
  | [], _, regs => regs.reverse
  | q :: rest, visited, regs =>
      if isEdge q && !visited.contains q then
        rtvGo eight isEdge fuel rest
          (floodFill eight isEdge fuel [q] [] ++ visited)
          (⟨floodFill eight isEdge fuel [q] [],
            (floodFill eight isEdge fuel [q] []).length⟩ :: regs)
      else rtvGo eight isEdge fuel rest visited regs

/-- Modelled from the spec: the remote `reduceToVectors` — group the
connected edge pixels of the integer raster inside the grid
(8-connectivity when `eightConnected`), one vector feature per region,
labelled by the counting reducer. -/
def reduceToVectors (args : ReduceToVectorsArgs) (grid : List (ℤ × ℤ))
    (img : ℤ × ℤ → ℚ) : List RegionFeature :=
  rtvGo args.eightConnected
    (fun x => decide (x ∈ grid) && decide (img x ≠ 0))
    (9 * (grid.length + 1)) grid [] []

/-- `field_boundaries = binary_edges.reduceToVectors(...)` with the
source's literal arguments, over the remote platform's scale-10 raster
grid of the AOI. -/
def field_boundaries (det : EdgeDetector) (cmap : ℚ × ℚ → Option ℚ)
    (rgrid : List (ℤ × ℤ)) : List RegionFeature :=
  reduceToVectors reduceToVectors_args rgrid (binary_edges det cmap)

/-- The artifacts of one successful run: the single composite, the
training samples, the classification raster and the boundary vectors. -/
structure PipelineArtifacts where
  composite : ℚ × ℚ → Option FeatureVec
  training : List TrainingSample
  classified : ℚ × ℚ → Option ℚ
  boundaries : List RegionFeature

/-- The error raised when the filtered collection is empty (the spec's
EmptyInputError; `raise ValueError(...)` in the source). -/
inductive PipelineError where
  | EmptyInputError (msg : String)
deriving Repr, DecidableEq

/-- The notebook's sequential flow: filter the catalog, check
`collection_size` and abort with the EmptyInputError before building the
composite when it is zero, else build the composite, sample the ground
truth, train and apply the classifier, and vectorize the binarized
edges. -/
def run_pipeline (catalog : List Scene) (grid : List (ℚ × ℚ)) (tr : Trainer)
    (det : EdgeDetector) (rgrid : List (ℤ × ℤ)) :
    Except PipelineError PipelineArtifacts :=
  if collection_size catalog = 0 then
    .error (.EmptyInputError
      "The GEE image collection is empty. Try expanding the date range.")
  else
    .ok ⟨composite_image catalog,
         training_data (composite_image catalog) grid,
         classification_map tr (composite_image catalog) grid,
         field_boundaries det
           (classification_map tr (composite_image catalog) grid) rgrid⟩

/-- Raw bands of the demonstration scene used by concrete witnesses. -/
def demoBands : SceneBands := ⟨100, 200, 300, 400, 0⟩

/-- A demonstration scene: footprint on the AOI, mid-July, 5% cloudy,
constant bands. -/
def demoScene : Scene := ⟨AOI, "2022-07-15", 5, fun _ => some demoBands⟩

/-- The composite pixel a one-`demoScene` catalog produces. -/
def demoVec : FeatureVec := ⟨1/100, 1/50, 3/100, 1/25, 1/7⟩

/-- A demonstration edge detector: strength 1 at the origin pixel, 0
elsewhere, ignoring its image and parameters. -/
def demoDet : EdgeDetector := fun _ _ _ q => if q = (0, 0) then 1 else 0

/- Helper: a bitwise-and test against a shifted one is a bit test. -/
lemma and_shiftLeft_one_eq_zero (qa i : Nat) :
    (qa &&& (1 <<< i) == 0) = !qa.testBit i := by
  rw [Nat.shiftLeft_eq, one_mul, Nat.and_two_pow]
  cases h : qa.testBit i
  · simp
  · simp [(Nat.pos_pow_of_pos i (by norm_num : 0 < 2)).ne']

/-- C2: for every pixel whose NIR and red reflectances have a nonzero
sum, the `NDVI` band added by `add_ndvi` equals `(NIR - RED) / (NIR + RED)`
(with `B8` as NIR and `B4` as red), and at NIR = 0.5, RED = 0.2 the value
is `3/7`, within `1e-4` of `0.4286`. -/
theorem add_ndvi_normalized_difference :
    (∀ px : ScaledBands, px.b8 + px.b4 ≠ 0 →
      (add_ndvi px).ndvi = (px.b8 - px.b4) / (px.b8 + px.b4)) ∧
    normalizedDifference (1/2) (1/5) = 3/7 ∧
    abs ((3 : ℚ)/7 - 0.4286) ≤ 1/10000 := by
  refine ⟨fun px _ => rfl, by norm_num [normalizedDifference], by
    rw [abs_le]; norm_num⟩

/-- Witness for C2 at the concrete pixel NIR = 0.5, RED = 0.2. -/
theorem add_ndvi_normalized_difference_witness :
    (1 : ℚ)/2 + 1/5 ≠ 0 ∧
    (add_ndvi ⟨0, 0, 1/5, 1/2, 0⟩).ndvi = ((1 : ℚ)/2 - 1/5) / (1/2 + 1/5) :=
  ⟨by norm_num,
   add_ndvi_normalized_difference.1 ⟨0, 0, 1/5, 1/2, 0⟩ (by norm_num)⟩

/-- C3: a scene pixel is dropped by the cloud mask exactly when bit 10
(cloud) or bit 11 (cirrus) of its `QA60` word is set, and it is kept
exactly when neither bit is set. -/
theorem mask_s2_clouds_bit_test (b : SceneBands) :
    (mask_s2_clouds (some b) = none ↔
      (b.qa60.testBit 10 = true ∨ b.qa60.testBit 11 = true)) ∧
    ((mask_s2_clouds (some b)).isSome ↔
      (b.qa60.testBit 10 = false ∧ b.qa60.testBit 11 = false)) := by
  have h : cloudMaskTest b.qa60 = (!b.qa60.testBit 10 && !b.qa60.testBit 11) := by
    simp only [cloudMaskTest, cloud_bit_mask, cirrus_bit_mask,
      and_shiftLeft_one_eq_zero]
  constructor
  · cases h10 : b.qa60.testBit 10 <;> cases h11 : b.qa60.testBit 11 <;>
      simp [mask_s2_clouds, h, h10, h11]
  · cases h10 : b.qa60.testBit 10 <;> cases h11 : b.qa60.testBit 11 <;>
      simp [mask_s2_clouds, h, h10, h11]

/-- C4: binarization of the edge-strength raster maps a strictly positive
pixel value to 1 and a zero or negative value to 0, and the result is
integer-valued. -/
theorem gtZero_binarizes (x : ℚ) :
    (0 < x → gtZero x = 1) ∧ (x ≤ 0 → gtZero x = 0) ∧
    (gtZero x = 0 ∨ gtZero x = 1) := by
  refine ⟨fun h => by simp [gtZero, h], fun h => by simp [gtZero, not_lt.mpr h], ?_⟩
  by_cases h : 0 < x <;> simp [gtZero, h]

/-- Witness for C4 at edge strengths `1/10` and `-3`. -/
theorem gtZero_binarizes_witness :
    ((0 : ℚ) < 1/10 ∧ gtZero (1/10) = 1) ∧ ((-3 : ℚ) ≤ 0 ∧ gtZero (-3) = 0) :=
  ⟨⟨by norm_num, (gtZero_binarizes (1/10)).1 (by norm_num)⟩,
   ⟨by norm_num, (gtZero_binarizes (-3)).2.1 (by norm_num)⟩⟩

/-- C5: binarization is idempotent — rebinarizing any value (in
particular any already-binary raster pixel) gives the same result. -/
theorem gtZero_idempotent (x : ℚ) : gtZero (gtZero x) = gtZero x := by
  by_cases h : 0 < x <;> simp [gtZero, h]

/-- Witness for C3: a `QA60` word with only the cloud bit set is
excluded. -/
theorem mask_s2_clouds_bit_test_witness :
    (1024 : Nat).testBit 10 = true ∧
    mask_s2_clouds (some ⟨0, 0, 0, 0, 1024⟩) = none :=
  ⟨by decide,
   (mask_s2_clouds_bit_test ⟨0, 0, 0, 0, 1024⟩).1.mpr (Or.inl (by decide))⟩

/-- Witness for C5 at edge strength 5. -/
theorem gtZero_idempotent_witness : gtZero (gtZero 5) = gtZero 5 :=
  gtZero_idempotent 5

/- Helper: the band values entering the median at a pixel are exactly the
raw stored values of the scenes that survive the cloud test, each divided
by 10000. -/
lemma masked_band_vals (ss : List Scene) (p : ℚ × ℚ)
    (g : AugBands → ℚ) (f : SceneBands → ℚ)
    (hgf : ∀ b : SceneBands, g (add_ndvi (scaleBands b)) = f b / 10000) :
    ((ss.map (fun s q => (mask_s2_clouds (s.pixels q)).map add_ndvi)).filterMap
        (fun img => img p)).map g
      = (ss.filterMap (fun s => (s.pixels p).bind
          (fun b => if cloudMaskTest b.qa60 then some (f b) else none))).map
          (fun x => x / 10000) := by
  induction ss with
  | nil => rfl
  | cons s ss ih =>
    simp only [List.map_cons, List.filterMap_cons]
    cases hp : s.pixels p with
    | none => simpa [mask_s2_clouds, hp] using ih
    | some b =>
      by_cases hb : cloudMaskTest b.qa60
      · simpa [mask_s2_clouds, hp, hb, hgf] using ih
      · simpa [mask_s2_clouds, hp, hb] using ih

/-- C10: `mask_s2_clouds` divides every band by 10000 in addition to
masking, so each non-index band of the composite is the per-pixel median
of the rescaled reflectances, not of the raw stored band values. -/
theorem mask_divides_composite_median_of_rescaled :
    (∀ b : SceneBands, cloudMaskTest b.qa60 = true →
      mask_s2_clouds (some b) = some (scaleBands b) ∧
      (scaleBands b).b2 = b.b2 / 10000 ∧ (scaleBands b).b3 = b.b3 / 10000 ∧
      (scaleBands b).b4 = b.b4 / 10000 ∧ (scaleBands b).b8 = b.b8 / 10000 ∧
      (scaleBands b).qa60 = (b.qa60 : ℚ) / 10000) ∧
    (∀ (catalog : List Scene) (p : ℚ × ℚ) (v : FeatureVec),
      composite_image catalog p = some v →
      v.b2 = median ((unmaskedRawBand SceneBands.b2 catalog p).map (fun x => x / 10000)) ∧
      v.b3 = median ((unmaskedRawBand SceneBands.b3 catalog p).map (fun x => x / 10000)) ∧
      v.b4 = median ((unmaskedRawBand SceneBands.b4 catalog p).map (fun x => x / 10000)) ∧
      v.b8 = median ((unmaskedRawBand SceneBands.b8 catalog p).map (fun x => x / 10000))) := by
  constructor
  · intro b hb
    exact ⟨by simp [mask_s2_clouds, hb], rfl, rfl, rfl, rfl, rfl⟩
  · intro catalog p v h
    simp only [composite_image, medianAug] at h
    cases hvs : ((s2_collection catalog).map
        (fun s q => (mask_s2_clouds (s.pixels q)).map add_ndvi)).filterMap
        (fun img => img p) with
    | nil => rw [hvs] at h; simp at h
    | cons a as =>
        rw [hvs] at h
        simp only [List.isEmpty_cons, Bool.false_eq_true, if_false,
          Option.map_some', Option.some.injEq] at h
        subst h
        refine ⟨?_, ?_, ?_, ?_⟩ <;>
        · rw [← hvs]
          exact congrArg median (masked_band_vals _ p _ _ fun b => rfl)

/-- Witness for C10 on the one-scene catalog. -/
theorem mask_divides_composite_median_of_rescaled_witness :
    cloudMaskTest demoBands.qa60 = true ∧
    composite_image [demoScene] (0, 0) = some demoVec ∧
    mask_s2_clouds (some demoBands) = some (scaleBands demoBands) ∧
    demoVec.b4 =
      median ((unmaskedRawBand SceneBands.b4 [demoScene] (0, 0)).map
        (fun x => x / 10000)) :=
  ⟨by decide, by with_unfolding_all decide,
   (mask_divides_composite_median_of_rescaled.1 demoBands (by decide)).1,
   (mask_divides_composite_median_of_rescaled.2 [demoScene] (0, 0) demoVec
     (by with_unfolding_all decide)).2.2.1⟩

/-- C6: sampling preserves ground-truth labels — every sample drawn from
a feature's polygon carries exactly that feature's `landcover` value, and
every sample of `training_data` carries the value of one of the
ground-truth features; sampling never alters or reassigns labels. -/
theorem sampling_preserves_labels :
    (∀ (img : ℚ × ℚ → Option FeatureVec) (grid : List (ℚ × ℚ))
       (f : GTFeature) (s : TrainingSample),
       s ∈ samplesFromFeature img grid f → s.label = f.landcover) ∧
    (∀ (img : ℚ × ℚ → Option FeatureVec) (grid : List (ℚ × ℚ))
       (s : TrainingSample), s ∈ training_data img grid →
       ∃ f ∈ ground_truth, s.label = f.landcover) := by
  have h1 : ∀ (img : ℚ × ℚ → Option FeatureVec) (grid : List (ℚ × ℚ))
      (f : GTFeature) (s : TrainingSample),
      s ∈ samplesFromFeature img grid f → s.label = f.landcover := by
    intro img grid f s hs
    simp only [samplesFromFeature, List.mem_filterMap, Option.map_eq_some',
      List.mem_filter] at hs
    obtain ⟨p, _, v, _, rfl⟩ := hs
    rfl
  refine ⟨h1, fun img grid s hs => ?_⟩
  simp only [training_data, List.mem_flatMap] at hs
  obtain ⟨f, hf, hsf⟩ := hs
  exact ⟨f, hf, h1 img grid f s hsf⟩

/-- Witness for C6: a sample drawn from the first Field polygon. -/
theorem sampling_preserves_labels_witness :
    (⟨⟨0, 0, 0, 0, 0⟩, classValue "Field"⟩ : TrainingSample) ∈
      samplesFromFeature (fun _ => some ⟨0, 0, 0, 0, 0⟩) [(5.455, 52.545)]
        (ground_truth.getD 0 ⟨[], 0⟩) ∧
    (⟨⟨0, 0, 0, 0, 0⟩, classValue "Field"⟩ : TrainingSample).label =
      (ground_truth.getD 0 ⟨[], 0⟩).landcover :=
  ⟨by with_unfolding_all decide,
   sampling_preserves_labels.1 (fun _ => some ⟨0, 0, 0, 0, 0⟩)
     [(5.455, 52.545)] (ground_truth.getD 0 ⟨[], 0⟩) _
     (by with_unfolding_all decide)⟩

/- Helper: the majority vote is one of the votes. -/
lemma majority_mem {xs : List ℚ} (h : xs ≠ []) : majority xs ∈ xs := by
  unfold majority
  cases hx : xs.argmax (fun v => xs.count v) with
  | none => exact absurd (List.argmax_eq_none.mp hx) h
  | some a => simpa using List.argmax_mem hx

/- Helper: evaluating a decision tree lands on one of its leaf labels. -/
lemma eval_mem_leafLabels (t : DTree) (v : FeatureVec) :
    t.eval v ∈ t.leafLabels := by
  induction t with
  | leaf l => simp [DTree.eval, DTree.leafLabels]
  | node f th l r ihl ihr =>
      simp only [DTree.eval, DTree.leafLabels, List.mem_append]
      by_cases hc : v.band f ≤ th
      · simp only [if_pos hc]; exact Or.inl ihl
      · simp only [if_neg hc]; exact Or.inr ihr

/- Helper: every training-sample label is the landcover of some
ground-truth feature. -/
lemma training_data_label_mem (img : ℚ × ℚ → Option FeatureVec)
    (grid : List (ℚ × ℚ)) (s : TrainingSample)
    (hs : s ∈ training_data img grid) :
    s.label ∈ ground_truth.map GTFeature.landcover := by
  simp only [training_data, List.mem_flatMap] at hs
  obtain ⟨f, hf, hsf⟩ := hs
  simp only [samplesFromFeature, List.mem_filterMap, Option.map_eq_some'] at hsf
  obtain ⟨p, _, v, _, rfl⟩ := hsf
  exact List.mem_map_of_mem _ hf

/- Helper: the landcover values of the four ground-truth features. -/
lemma ground_truth_landcover :
    ground_truth.map GTFeature.landcover = [1, 1, 0, 0] := by
  with_unfolding_all decide

/- Helper: the degenerate trainer satisfies the remote trainer's
contract. -/
lemma constTrainer_valid : ValidTrainer constTrainer := by
  intro cfg samples cp props hne
  refine ⟨by simp [constTrainer], ?_⟩
  intro t ht l hl
  simp only [constTrainer, List.mem_replicate] at ht
  obtain ⟨-, rfl⟩ := ht
  simp only [DTree.leafLabels, List.mem_singleton] at hl
  subst hl
  cases hsam : samples.map TrainingSample.label with
  | nil =>
      cases samples with
      | nil => exact absurd rfl hne
      | cons a as => simp at hsam
  | cons a as => simp

/-- C7: the classifier stage trains an ensemble of exactly 20 decision
trees, with the four reflectance bands plus the vegetation index as
predictors and the `landcover` polygon label as target, and applying it
to the composite emits for every unmasked pixel a label in {0, 1}. -/
theorem classifier_ensemble_and_binary_output :
    FEATURE_BANDS = ["B2", "B3", "B4", "B8", "NDVI"] ∧
    CLASS_PROPERTY = "landcover" ∧
    ∀ (tr : Trainer), ValidTrainer tr →
      ∀ (img : ℚ × ℚ → Option FeatureVec) (grid : List (ℚ × ℚ)),
        training_data img grid ≠ [] →
        ((classifier tr img grid).trees.length = 20 ∧
         ∀ (p : ℚ × ℚ) (v : ℚ), classification_map tr img grid p = some v →
           (v = 0 ∨ v = 1)) := by
  refine ⟨by decide, rfl, ?_⟩
  intro tr htr img grid hne
  obtain ⟨hlen, hleaf⟩ :=
    htr (smileRandomForest 20) (training_data img grid) CLASS_PROPERTY
      FEATURE_BANDS hne
  have hlen' : (classifier tr img grid).trees.length = 20 := hlen
  refine ⟨hlen', ?_⟩
  intro p v hv
  simp only [classification_map, classify, Option.map_eq_some'] at hv
  obtain ⟨fv, _, hmaj⟩ := hv
  have htne : (classifier tr img grid).trees ≠ [] := by
    intro hnil
    rw [hnil] at hlen'
    exact absurd hlen' (by decide)
  have hvmem : v ∈ (classifier tr img grid).trees.map (fun t => t.eval fv) := by
    rw [← hmaj]
    exact majority_mem (by simpa using htne)
  obtain ⟨t, ht, hev⟩ := List.mem_map.mp hvmem
  have hlab : v ∈ (training_data img grid).map TrainingSample.label :=
    hleaf t ht v (hev ▸ eval_mem_leafLabels t fv)
  obtain ⟨s, hsmem, rfl⟩ := List.mem_map.mp hlab
  have hmem := ground_truth_landcover ▸ training_data_label_mem img grid s hsmem
  rcases List.mem_cons.mp hmem with h | hmem'
  · exact Or.inr h
  · rcases List.mem_cons.mp hmem' with h | hmem''
    · exact Or.inr h
    · rcases List.mem_cons.mp hmem'' with h | hmem'''
      · exact Or.inl h
      · rcases List.mem_cons.mp hmem''' with h | hcon
        · exact Or.inl h
        · simp at hcon

/-- Witness for C7: the degenerate trainer on a one-pixel grid inside the
first Field polygon. -/
theorem classifier_ensemble_and_binary_output_witness :
    ValidTrainer constTrainer ∧
    training_data (fun _ => some ⟨0, 0, 0, 0, 0⟩) [(5.455, 52.545)] ≠ [] ∧
    (classifier constTrainer (fun _ => some ⟨0, 0, 0, 0, 0⟩)
      [(5.455, 52.545)]).trees.length = 20 :=
  ⟨constTrainer_valid, by with_unfolding_all decide,
   (classifier_ensemble_and_binary_output.2.2 constTrainer constTrainer_valid
     (fun _ => some ⟨0, 0, 0, 0, 0⟩) [(5.455, 52.545)]
     (by with_unfolding_all decide)).1⟩

/- Helper: every pixel flood fill collects satisfies the edge predicate,
provided the stack and accumulator do. -/
lemma floodFill_all (eight : Bool) (isEdge : ℤ × ℤ → Bool) :
    ∀ (fuel : Nat) (stack acc : List (ℤ × ℤ)),
      (∀ x ∈ stack, isEdge x = true) → (∀ x ∈ acc, isEdge x = true) →
      ∀ x ∈ floodFill eight isEdge fuel stack acc, isEdge x = true := by
  intro fuel
  induction fuel with
  | zero =>
      intro stack acc _ ha x hx
      simp only [floodFill] at hx
      exact ha x hx
  | succ n ih =>
      intro stack acc hs ha x hx
      cases stack with
      | nil =>
          simp only [floodFill] at hx
          exact ha x hx
      | cons q qs =>
          simp only [floodFill] at hx
          by_cases hq : acc.contains q
          · rw [if_pos hq] at hx
            exact ih qs acc (fun y hy => hs y (List.mem_cons_of_mem _ hy)) ha x hx
          · rw [if_neg hq] at hx
            refine ih _ _ ?_ ?_ x hx
            · intro y hy
              rcases List.mem_append.mp hy with h | h
              · exact (List.mem_filter.mp h).2
              · exact hs y (List.mem_cons_of_mem _ h)
            · intro y hy
              rcases List.mem_cons.mp hy with rfl | h
              · exact hs y (List.mem_cons_self _ _)
              · exact ha y h

/- Helper: any property that holds of every flood-filled region, and of
the accumulated regions, holds of the sweep's whole output. -/
lemma rtvGo_all (eight : Bool) (isEdge : ℤ × ℤ → Bool) (fuel : Nat)
    (P : RegionFeature → Prop)
    (hP : ∀ comp : List (ℤ × ℤ), (∀ x ∈ comp, isEdge x = true) →
      P ⟨comp, comp.length⟩) :
    ∀ (rest visited : List (ℤ × ℤ)) (regs : List RegionFeature),
      (∀ r ∈ regs, P r) →
      ∀ r ∈ rtvGo eight isEdge fuel rest visited regs, P r := by
  intro rest
  induction rest with
  | nil =>
      intro visited regs hregs r hr
      simp only [rtvGo] at hr
      exact hregs r (List.mem_reverse.mp hr)
  | cons q qs ih =>
      intro visited regs hregs r hr
      simp only [rtvGo] at hr
      by_cases hq : (isEdge q && !visited.contains q) = true
      · rw [if_pos hq] at hr
        refine ih _ _ ?_ r hr
        intro r' hr'
        rcases List.mem_cons.mp hr' with rfl | h
        · refine hP _ (floodFill_all eight isEdge fuel [q] [] ?_ (by simp))
          intro x hx
          have hxq : x = q := List.mem_singleton.mp hx
          subst hxq
          have hq' : isEdge x = true ∧ (!visited.contains x) = true := by
            simpa using hq
          exact hq'.1
        · exact hregs r' h
      · rw [if_neg hq] at hr
        exact ih _ _ hregs r hr

/- Helper: the sweep never loses already-emitted regions. -/
lemma rtvGo_ne_nil_of_regs (eight : Bool) (isEdge : ℤ × ℤ → Bool)
    (fuel : Nat) :
    ∀ (rest visited : List (ℤ × ℤ)) (regs : List RegionFeature),
      regs ≠ [] → rtvGo eight isEdge fuel rest visited regs ≠ [] := by
  intro rest
  induction rest with
  | nil =>
      intro visited regs h
      simp only [rtvGo]
      simpa using h
  | cons q qs ih =>
      intro visited regs h
      simp only [rtvGo]
      by_cases hq : (isEdge q && !visited.contains q) = true
      · rw [if_pos hq]
        exact ih _ _ (by simp)
      · rw [if_neg hq]
        exact ih _ _ h

/- Helper: if some pixel of the grid satisfies the edge predicate, the
sweep emits at least one region. -/
lemma rtvGo_ne_nil (eight : Bool) (isEdge : ℤ × ℤ → Bool) (fuel : Nat) :
    ∀ (rest visited : List (ℤ × ℤ)) (regs : List RegionFeature),
      (visited ≠ [] → regs ≠ []) →
      (∃ q ∈ rest, isEdge q = true) →
      rtvGo eight isEdge fuel rest visited regs ≠ [] := by
  intro rest
  induction rest with
  | nil =>
      rintro visited regs _ ⟨q, hq, -⟩
      simp at hq
  | cons a qs ih =>
      rintro visited regs hinv ⟨q, hqmem, hqe⟩
      simp only [rtvGo]
      by_cases ha : (isEdge a && !visited.contains a) = true
      · rw [if_pos ha]
        exact rtvGo_ne_nil_of_regs eight isEdge fuel _ _ _ (by simp)
      · rw [if_neg ha]
        rcases List.mem_cons.mp hqmem with rfl | hmem
        · have hva : visited.contains q = true := by
            by_contra hc
            have hc' : (!visited.contains q) = true := by
              cases h2 : visited.contains q
              · rfl
              · exact absurd h2 hc
            exact ha (by rw [hqe, hc']; rfl)
          have hvne : visited ≠ [] := by
            intro h
            rw [h] at hva
            simp at hva
          exact rtvGo_ne_nil_of_regs eight isEdge fuel _ _ _ (hinv hvne)
        · exact ih _ _ hinv ⟨q, hmem, hqe⟩

/- Helper: a grid pixel with nonzero raster value forces a non-empty
vectorization output. -/
lemma reduceToVectors_ne_nil (args : ReduceToVectorsArgs)
    (grid : List (ℤ × ℤ)) (img : ℤ × ℤ → ℚ) (q : ℤ × ℤ)
    (hq : q ∈ grid) (hnz : img q ≠ 0) :
    reduceToVectors args grid img ≠ [] := by
  refine rtvGo_ne_nil _ _ _ grid [] [] (fun h => absurd rfl h) ⟨q, hq, ?_⟩
  simp [hq, hnz]

/-- C8: vectorization is called with 8-connectivity, at the same scale-10
ground resolution as training sampling, with the trivial counting
aggregate as the region-label reducer, over the integer-valued binarized
edge raster; every emitted region consists of edge pixels of the grid and
its label is the count of its pixels. -/
theorem vectorization_connected_counting :
    reduceToVectors_args.eightConnected = true ∧
    reduceToVectors_args.scale = sampleRegions_args.scale ∧
    reduceToVectors_args.reducer = EEReducer.countEvery ∧
    (∀ (det : EdgeDetector) (cmap : ℚ × ℚ → Option ℚ) (q : ℤ × ℤ),
      binary_edges det cmap q = 0 ∨ binary_edges det cmap q = 1) ∧
    (∀ (det : EdgeDetector) (cmap : ℚ × ℚ → Option ℚ)
       (rgrid : List (ℤ × ℤ)), ∀ r ∈ field_boundaries det cmap rgrid,
      r.label = r.pixels.length ∧
      ∀ q ∈ r.pixels, q ∈ rgrid ∧ binary_edges det cmap q ≠ 0) := by
  refine ⟨rfl, rfl, rfl, ?_, ?_⟩
  · intro det cmap q
    unfold binary_edges gtZero
    by_cases h : 0 < edges det cmap q <;> simp [h]
  · intro det cmap rgrid r hr
    refine rtvGo_all _ _ _
      (fun r => r.label = r.pixels.length ∧
        ∀ q ∈ r.pixels, q ∈ rgrid ∧ binary_edges det cmap q ≠ 0)
      ?_ rgrid [] [] (by simp) r hr
    intro comp hcomp
    refine ⟨rfl, ?_⟩
    intro q hq
    have h := hcomp q hq
    simp only [Bool.and_eq_true, decide_eq_true_eq] at h
    exact h

/-- Witness for C8: a one-pixel raster with an edge at the origin yields
the single counted region. -/
theorem vectorization_connected_counting_witness :
    (⟨[(0, 0)], 1⟩ : RegionFeature) ∈
      field_boundaries demoDet (fun _ => none) [(0, 0)] ∧
    ((⟨[(0, 0)], 1⟩ : RegionFeature).label =
      (⟨[(0, 0)], 1⟩ : RegionFeature).pixels.length) :=
  ⟨by with_unfolding_all decide,
   (vectorization_connected_counting.2.2.2.2 demoDet (fun _ => none)
     [(0, 0)] ⟨[(0, 0)], 1⟩ (by with_unfolding_all decide)).1⟩

/-- C1: whenever the filtered collection is empty, the run fails with the
EmptyInputError before the composite is built and before any
classification is attempted, and no artifact record is produced. -/
theorem empty_collection_fails_before_composite :
    ∀ (catalog : List Scene) (grid : List (ℚ × ℚ)) (tr : Trainer)
      (det : EdgeDetector) (rgrid : List (ℤ × ℤ)),
      collection_size catalog = 0 →
      (run_pipeline catalog grid tr det rgrid =
        .error (.EmptyInputError
          "The GEE image collection is empty. Try expanding the date range.") ∧
       ∀ a : PipelineArtifacts,
         run_pipeline catalog grid tr det rgrid ≠ .ok a) := by
  intro catalog grid tr det rgrid h
  refine ⟨by simp [run_pipeline, h], ?_⟩
  intro a hok
  simp [run_pipeline, h] at hok

/-- Witness for C1 on the empty catalog. -/
theorem empty_collection_fails_before_composite_witness :
    collection_size [] = 0 ∧
    run_pipeline [] [] constTrainer demoDet [] =
      .error (.EmptyInputError
        "The GEE image collection is empty. Try expanding the date range.") :=
  ⟨rfl,
   (empty_collection_fails_before_composite [] [] constTrainer demoDet []
     rfl).1⟩

/-- C9: under the fixed run configuration (the AOI rectangle
[5.3,52.4]-[5.7,52.6], the July 2022 window and the 10% cloud ceiling are
baked into `collection_size` and `composite_image`), whenever the remote
archive yields a non-empty filtered collection and the binarized edge
raster has an edge pixel on the AOI grid, the pipeline succeeds and
produces the one composite-gated artifact record, trains on exactly 4
labeled polygons of which exactly 2 are Field and 2 Non-Field, and yields
a non-empty boundary vector set. -/
theorem fixed_run_end_to_end :
    ∀ (catalog : List Scene) (grid : List (ℚ × ℚ)) (tr : Trainer)
      (det : EdgeDetector) (rgrid : List (ℤ × ℤ)),
      collection_size catalog ≠ 0 →
      (∃ q ∈ rgrid,
        binary_edges det
          (classification_map tr (composite_image catalog) grid) q ≠ 0) →
      (run_pipeline catalog grid tr det rgrid =
        .ok ⟨composite_image catalog,
             training_data (composite_image catalog) grid,
             classification_map tr (composite_image catalog) grid,
             field_boundaries det
               (classification_map tr (composite_image catalog) grid)
               rgrid⟩ ∧
       ground_truth.length = 4 ∧
       (ground_truth.filter
         (fun f => decide (f.landcover = classValue "Field"))).length = 2 ∧
       (ground_truth.filter
         (fun f => decide (f.landcover = classValue "Non-Field"))).length
           = 2 ∧
       field_boundaries det
         (classification_map tr (composite_image catalog) grid) rgrid
           ≠ []) := by
  rintro catalog grid tr det rgrid hne ⟨q, hqmem, hqnz⟩
  refine ⟨by simp [run_pipeline, hne], rfl,
    by with_unfolding_all decide, by with_unfolding_all decide, ?_⟩
  exact reduceToVectors_ne_nil _ _ _ q hqmem hqnz

/-- Witness for C9: the one-scene catalog and a one-pixel raster grid
with an edge at the origin. -/
theorem fixed_run_end_to_end_witness :
    collection_size [demoScene] ≠ 0 ∧
    ((0, 0) ∈ [((0 : ℤ), (0 : ℤ))] ∧
      binary_edges demoDet
        (classification_map constTrainer (composite_image [demoScene]) [])
        (0, 0) ≠ 0) ∧
    field_boundaries demoDet
      (classification_map constTrainer (composite_image [demoScene]) [])
      [(0, 0)] ≠ [] :=
  ⟨by with_unfolding_all decide,
   ⟨by decide, by with_unfolding_all decide⟩,
   (fixed_run_end_to_end [demoScene] [] constTrainer demoDet [(0, 0)]
     (by with_unfolding_all decide)
     ⟨(0, 0), by decide, by with_unfolding_all decide⟩).2.2.2.2⟩
